import Mathlib

/-!
Shallow embedding of `immich-onedrive-diff.py`: the fetch/cache/diff/download
pipeline. Remote-API dictionaries become Lean structures; the requests made by
pagination loops are modelled by a list of simulated responses consumed in
order; the snapshot cache file is modelled by a token-level serialization so
that partial writes are expressible; progress bars become counters.
-/

set_option autoImplicit false

/-- A OneDrive file-metadata record, as stored in the raw Graph API item dict:
`id`, `name`, optional `size`, and whether the dict carries the `"file"` key
(the file-vs-folder marker; folders lack it). -/
structure Item where
  id : String
  name : String
  size : Option Nat
  hasFile : Bool
deriving DecidableEq, Repr

/-- An Immich asset record: the three fields the filename extractor consults.
`none` models an absent key (`dict.get` returning `None`). -/
structure ImAsset where
  originalFileName : Option String
  fileName : Option String
  originalPath : Option String
deriving DecidableEq, Repr

/-- Python truthiness of an optional string: `None` and `""` are falsy. -/
def pyStrTruthy : Option String → Bool
  | none => false
  | some s => s ≠ ""

/-- Python `a or b` where `a` is an optional string and `b` a string:
returns `a`'s value when truthy, else `b`. -/
def pyOrStr : Option String → String → String
  | none, b => b
  | some s, b => if s = "" then b else s

/-- Python `str.split("/")` on the character list: splits at every `'/'`,
keeping empty pieces (so `"" ↦ [""]` and `"/x" ↦ ["", "x"]`). -/
def splitSlashAux : List Char → List Char → List (List Char)
  | [], cur => [cur.reverse]
  | c :: rest, cur =>
    if c = '/' then cur.reverse :: splitSlashAux rest []
    else splitSlashAux rest (c :: cur)

/-- Python `s.split("/")`. -/
def pySplitSlash (s : String) : List String :=
  (splitSlashAux s.toList []).map (fun cs => String.mk cs)

/-- The name resolution of `get_immich_filenames` for one asset:
`a.get("originalFileName") or a.get("fileName") or
a.get("originalPath", "").split("/")[-1]`. -/
def resolveName (a : ImAsset) : String :=
  pyOrStr a.originalFileName
    (pyOrStr a.fileName ((pySplitSlash (a.originalPath.getD "")).getLastD ""))

/-- Loop body of `get_immich_filenames`: `if name: names.add(name)`. -/
def addName (names : Finset String) (a : ImAsset) : Finset String :=
  let name := resolveName a
  if name ≠ "" then insert name names else names

/-- `get_immich_filenames(asset_list)`: builds the set of resolved names,
skipping assets whose resolved name is empty. -/
def get_immich_filenames (asset_list : List ImAsset) : Finset String :=
  asset_list.foldl addName ∅

/-- `list_missing_files(onedrive_files, immich_filenames)`: forms the set of
OneDrive names, subtracts the Immich names, and keeps the records whose name
lies in the difference. -/
def list_missing_files (onedrive_files : List Item) (immich_filenames : Finset String) :
    List Item :=
  let onedrive_names : Finset String := (onedrive_files.map (fun f => f.name)).toFinset
  let missing_names : Finset String := onedrive_names \ immich_filenames
  onedrive_files.filter (fun f => f.name ∈ missing_names)

theorem list_missing_files_eq_filter (S : List Item) (T : Finset String) :
    list_missing_files S T = S.filter (fun f => f.name ∉ T) := by
  unfold list_missing_files
  refine List.filter_congr ?_
  intro f hf
  simp only [Finset.mem_sdiff, List.mem_toFinset, List.mem_map, decide_eq_decide]
  constructor
  · exact fun h => h.2
  · exact fun h => ⟨⟨f, hf, rfl⟩, h⟩

/-- C1: `list_missing_files(S, T)` returns exactly the records of `S` whose
name is not a member of `T` (exact string equality on the name field), in the
same relative order (a sublist of `S`), and applying it a second time to its
own output yields the same output (idempotence). -/
theorem c1_list_missing_files_correct (S : List Item) (T : Finset String) :
    list_missing_files S T = S.filter (fun f => f.name ∉ T)
    ∧ List.Sublist (list_missing_files S T) S
    ∧ list_missing_files (list_missing_files S T) T = list_missing_files S T := by
  refine ⟨list_missing_files_eq_filter S T, ?_, ?_⟩
  · rw [list_missing_files_eq_filter]
    exact List.filter_sublist S
  · rw [list_missing_files_eq_filter (list_missing_files S T) T,
      list_missing_files_eq_filter S T]
    refine List.filter_eq_self.mpr ?_
    intro f hf
    exact (List.mem_filter.mp hf).2

theorem mem_foldl_addName (l : List ImAsset) (acc : Finset String) (x : String) :
    x ∈ l.foldl addName acc
      ↔ x ∈ acc ∨ (x ≠ "" ∧ ∃ a ∈ l, resolveName a = x) := by
  induction l generalizing acc with
  | nil => simp
  | cons a rest ih =>
    by_cases h : resolveName a = ""
    · have ha : addName acc a = acc := by simp [addName, h]
      rw [List.foldl_cons, ha, ih]
      constructor
      · rintro (hx | ⟨hne, b, hb, hres⟩)
        · exact Or.inl hx
        · exact Or.inr ⟨hne, b, List.mem_cons_of_mem a hb, hres⟩
      · rintro (hx | ⟨hne, b, hb, hres⟩)
        · exact Or.inl hx
        · rcases List.mem_cons.mp hb with hba | hbr
          · exact (hne (by rw [← hres, hba, h])).elim
          · exact Or.inr ⟨hne, b, hbr, hres⟩
    · have ha : addName acc a = insert (resolveName a) acc := by simp [addName, h]
      rw [List.foldl_cons, ha, ih]
      constructor
      · rintro (hx | ⟨hne, b, hb, hres⟩)
        · rcases Finset.mem_insert.mp hx with hxa | hxacc
          · exact Or.inr ⟨by rw [hxa]; exact h, a, List.mem_cons_self a rest, hxa.symm⟩
          · exact Or.inl hxacc
        · exact Or.inr ⟨hne, b, List.mem_cons_of_mem a hb, hres⟩
      · rintro (hx | ⟨hne, b, hb, hres⟩)
        · exact Or.inl (Finset.mem_insert_of_mem hx)
        · rcases List.mem_cons.mp hb with hba | hbr
          · exact Or.inl (Finset.mem_insert.mpr (Or.inl (by rw [← hres, hba])))
          · exact Or.inr ⟨hne, b, hbr, hres⟩

theorem mem_get_immich_filenames (l : List ImAsset) (x : String) :
    x ∈ get_immich_filenames l ↔ x ≠ "" ∧ ∃ a ∈ l, resolveName a = x := by
  have h := mem_foldl_addName l ∅ x
  simpa [get_immich_filenames] using h

/-- C2: `get_immich_filenames` resolves each asset's name by the preference
order `originalFileName`, else `fileName`, else the last `/`-segment of
`originalPath`; empty resolved names are skipped; the result is a set whose
members are exactly the nonempty resolved names; and on the four sample
assets it is exactly the set containing a.jpg, b.jpg and c.jpg. -/
theorem c2_get_immich_filenames_correct :
    (∀ (l : List ImAsset) (x : String),
      x ∈ get_immich_filenames l ↔ x ≠ "" ∧ ∃ a ∈ l, resolveName a = x)
    ∧ (∀ (a : ImAsset) (s : String), a.originalFileName = some s → s ≠ "" →
        resolveName a = s)
    ∧ (∀ (a : ImAsset) (s : String), pyStrTruthy a.originalFileName = false →
        a.fileName = some s → s ≠ "" → resolveName a = s)
    ∧ (∀ a : ImAsset, pyStrTruthy a.originalFileName = false →
        pyStrTruthy a.fileName = false →
        resolveName a = (pySplitSlash (a.originalPath.getD "")).getLastD "")
    ∧ get_immich_filenames
        [⟨some "a.jpg", none, none⟩, ⟨none, some "b.jpg", none⟩,
         ⟨none, none, some "/x/c.jpg"⟩, ⟨none, none, none⟩]
      = {"a.jpg", "b.jpg", "c.jpg"} := by
  have hpref1 : ∀ (a : ImAsset) (s : String), a.originalFileName = some s → s ≠ "" →
      resolveName a = s := by
    intro a s hof hs
    simp [resolveName, pyOrStr, hof, hs]
  have hpref2 : ∀ (a : ImAsset) (s : String), pyStrTruthy a.originalFileName = false →
      a.fileName = some s → s ≠ "" → resolveName a = s := by
    intro a s hof hfn hs
    cases h : a.originalFileName with
    | none => simp [resolveName, pyOrStr, h, hfn, hs]
    | some t =>
      have ht : t = "" := by
        by_contra hne
        simp [pyStrTruthy, h, hne] at hof
      simp [resolveName, pyOrStr, h, ht, hfn, hs]
  have hpref3 : ∀ a : ImAsset, pyStrTruthy a.originalFileName = false →
      pyStrTruthy a.fileName = false →
      resolveName a = (pySplitSlash (a.originalPath.getD "")).getLastD "" := by
    intro a hof hfn
    have h1 : pyOrStr a.fileName ((pySplitSlash (a.originalPath.getD "")).getLastD "")
        = (pySplitSlash (a.originalPath.getD "")).getLastD "" := by
      cases h2 : a.fileName with
      | none => simp [pyOrStr]
      | some u =>
        have hu : u = "" := by
          by_contra hne
          simp [pyStrTruthy, h2, hne] at hfn
        simp [pyOrStr, hu]
    cases h : a.originalFileName with
    | none =>
      simp only [resolveName, h, pyOrStr]
      exact h1
    | some t =>
      have ht : t = "" := by
        by_contra hne
        simp [pyStrTruthy, h, hne] at hof
      simp only [resolveName, h, ht, pyOrStr]
      rw [if_pos trivial]
      exact h1
  refine ⟨mem_get_immich_filenames, hpref1, hpref2, hpref3, ?_⟩
  refine Finset.ext ?_
  intro x
  rw [mem_get_immich_filenames]
  have r1 : resolveName ⟨some "a.jpg", none, none⟩ = "a.jpg" := by decide
  have r2 : resolveName ⟨none, some "b.jpg", none⟩ = "b.jpg" := by decide
  have r3 : resolveName ⟨none, none, some "/x/c.jpg"⟩ = "c.jpg" := by decide
  have r4 : resolveName ⟨none, none, none⟩ = "" := by decide
  simp only [List.mem_cons, List.not_mem_nil, or_false, Finset.mem_insert,
    Finset.mem_singleton]
  constructor
  · rintro ⟨hne, b, hb, hres⟩
    rcases hb with hb | hb | hb | hb
    · exact Or.inl (by rw [← hres, hb, r1])
    · exact Or.inr (Or.inl (by rw [← hres, hb, r2]))
    · exact Or.inr (Or.inr (by rw [← hres, hb, r3]))
    · exact (hne (by rw [← hres, hb, r4])).elim
  · rintro (hx | hx | hx)
    · exact ⟨by rw [hx]; decide, _, Or.inl rfl, by rw [r1, hx]⟩
    · exact ⟨by rw [hx]; decide, _, Or.inr (Or.inl rfl), by rw [r2, hx]⟩
    · exact ⟨by rw [hx]; decide, _, Or.inr (Or.inr (Or.inl rfl)), by rw [r3, hx]⟩

/-- C2 witness: the implication conjuncts of the characterization hold at
concrete assets. -/
theorem c2_get_immich_filenames_witness :
    resolveName ⟨some "z.jpg", some "w.jpg", none⟩ = "z.jpg"
    ∧ resolveName ⟨none, some "w.jpg", some "/p/q.jpg"⟩ = "w.jpg"
    ∧ resolveName ⟨some "", none, some "/p/q.jpg"⟩
        = (pySplitSlash (((⟨some "", none, some "/p/q.jpg"⟩ : ImAsset)).originalPath.getD "")).getLastD ""
    ∧ ("q.jpg" ∈ get_immich_filenames [⟨some "", none, some "/p/q.jpg"⟩] ↔
        "q.jpg" ≠ "" ∧ ∃ a ∈ [(⟨some "", none, some "/p/q.jpg"⟩ : ImAsset)],
          resolveName a = "q.jpg") :=
  ⟨c2_get_immich_filenames_correct.2.1 _ "z.jpg" rfl (by decide),
   c2_get_immich_filenames_correct.2.2.1 _ "w.jpg" (by decide) rfl (by decide),
   c2_get_immich_filenames_correct.2.2.2.1 ⟨some "", none, some "/p/q.jpg"⟩
     (by decide) (by decide),
   c2_get_immich_filenames_correct.1 _ "q.jpg"⟩

/-- A token of the serialized snapshot cache: an abstraction of the JSON
text `json.dump` writes and `json.load` reads (array brackets, object
braces, strings, numbers, null, bool). -/
inductive Tok where
  | lb
  | rb
  | lcb
  | rcb
  | tstr (s : String)
  | tnum (n : Nat)
  | tnull
  | tbool (b : Bool)
deriving DecidableEq, Repr

/-- A JSON scalar value. -/
inductive JScalar where
  | snull
  | sbool (b : Bool)
  | snum (n : Nat)
  | sstr (s : String)
deriving DecidableEq, Repr

/-- An element of a JSON array: a scalar, or a flat object (string keys with
scalar values). Deeper nesting is not modelled; the parser rejects it. -/
inductive JElem where
  | escalar (s : JScalar)
  | eobj (fields : List (String × JScalar))
deriving DecidableEq, Repr

/-- A parsed JSON document: a scalar, an array of elements, or a flat
object. -/
inductive JTop where
  | jscalar (s : JScalar)
  | jarr (elems : List JElem)
  | jobj (fields : List (String × JScalar))
deriving DecidableEq, Repr

/-- The token of one scalar. -/
def scalarTok : JScalar → Tok
  | .snull => .tnull
  | .sbool b => .tbool b
  | .snum n => .tnum n
  | .sstr s => .tstr s

/-- The scalar stored for the optional `size` field. -/
def sizeScalar : Option Nat → JScalar
  | none => .snull
  | some n => .snum n

/-- The fields of one raw item dict as the cache stores it: `id`, `name`,
`size`, and the `"file"` marker key exactly when the item is a file (the
marker's real nested facet object is abstracted to a scalar, since the code
only tests the key's presence). -/
def itemFields (i : Item) : List (String × JScalar) :=
  [("id", .sstr i.id), ("name", .sstr i.name), ("size", sizeScalar i.size)]
    ++ (if i.hasFile then [("file", .sbool true)] else [])

/-- Serialization of object fields, closed by the `rcb` brace token. -/
def encodeFields : List (String × JScalar) → List Tok
  | [] => [Tok.rcb]
  | (k, v) :: rest => .tstr k :: scalarTok v :: encodeFields rest

/-- Serialization of one raw item dict. -/
def encodeItemObj (i : Item) : List Tok :=
  .lcb :: encodeFields (itemFields i)

/-- Serialization of the tail of the JSON array of raw items. -/
def encList : List Item → List Tok
  | [] => [Tok.rb]
  | i :: rest => encodeItemObj i ++ encList rest

/-- `json.dump(items, f)`: the complete serialized cache content. -/
def encodeItems (l : List Item) : List Tok :=
  Tok.lb :: encList l

/-- Parse one scalar token. -/
def parseScalar : Tok → Option JScalar
  | .tnull => some .snull
  | .tbool b => some (.sbool b)
  | .tnum n => some (.snum n)
  | .tstr s => some (.sstr s)
  | _ => none

/-- Parse object fields up to the closing brace, returning the remainder. -/
def parseObjFields : List Tok → Option (List (String × JScalar) × List Tok)
  | .rcb :: rest => some ([], rest)
  | .tstr k :: t :: rest =>
    (match parseScalar t with
    | some v => (parseObjFields rest).map (fun p => ((k, v) :: p.1, p.2))
    | none => none)
  | _ => none

/-- Parse array elements up to the closing bracket; the fuel bounds the
element count (any fuel at least the token count suffices). -/
def parseArrElems : Nat → List Tok → Option (List JElem)
  | _, [Tok.rb] => some []
  | fuel + 1, .lcb :: rest =>
    (match parseObjFields rest with
    | some (fs, rest2) => (parseArrElems fuel rest2).map (fun es => .eobj fs :: es)
    | none => none)
  | fuel + 1, t :: rest =>
    (match parseScalar t with
    | some s => (parseArrElems fuel rest).map (fun es => .escalar s :: es)
    | none => none)
  | _, _ => none

/-- `json.load(f)` on the cache file content; `none` models
`json.JSONDecodeError`. -/
def jsonLoad : List Tok → Option JTop
  | .lb :: rest => (parseArrElems rest.length rest).map .jarr
  | .lcb :: rest =>
    (match parseObjFields rest with
    | some (fs, []) => some (.jobj fs)
    | _ => none)
  | [t] => (parseScalar t).map .jscalar
  | _ => none

/-- The string value of a field, as the downstream code reads it. -/
def strOf : Option JScalar → String
  | some (.sstr s) => s
  | _ => ""

/-- The numeric value of a field. -/
def natOf : Option JScalar → Option Nat
  | some (.snum n) => some n
  | _ => none

/-- The record view of one parsed item dict: the fields the program later
subscripts, and the presence of the `"file"` key. -/
def itemOfFields (fs : List (String × JScalar)) : Item :=
  ⟨strOf (fs.lookup "id"), strOf (fs.lookup "name"), natOf (fs.lookup "size"),
    (fs.lookup "file").isSome⟩

/-- `cs` begins with `pat`. -/
def listStartsWith : List Char → List Char → Bool
  | [], _ => true
  | _ :: _, [] => false
  | p :: ps, c :: cs => p = c && listStartsWith ps cs

/-- `pat` occurs contiguously in `cs`. -/
def listHasInfix : List Char → List Char → Bool
  | pat, [] => pat.isEmpty
  | pat, c :: cs => listStartsWith pat (c :: cs) || listHasInfix pat cs

/-- Python `pat in s` on strings: the substring test. -/
def pyInStr (pat s : String) : Bool :=
  listHasInfix pat.toList s.toList

/-- The comprehension `[item for item in items if "file" in item]` over the
elements of a loaded JSON array, left to right: a null, number or boolean
element raises `TypeError` (`.error`, uncaught); a string element is kept
exactly when it contains `"file"` — the Bool records that such a non-dict
value was kept; a dict element is kept when it has the `"file"` key. -/
def filterElems : List JElem → Except Unit (List Item × Bool)
  | [] => .ok ([], false)
  | .escalar .snull :: _ => .error ()
  | .escalar (.sbool _) :: _ => .error ()
  | .escalar (.snum _) :: _ => .error ()
  | .escalar (.sstr s) :: rest =>
    (filterElems rest).map (fun p => (p.1, pyInStr "file" s || p.2))
  | .eobj fs :: rest =>
    (filterElems rest).map (fun p =>
      (if (fs.lookup "file").isSome then itemOfFields fs :: p.1 else p.1, p.2))

/-- Outcome of the cache-read attempt (lines 58-65). -/
inductive CacheRead where
  | parseError
  | crash
  | keptRaw
  | ok (items : List Item)
deriving DecidableEq, Repr

/-- `json.load` plus the `"file" in item` comprehension on the cache
content. `parseError` is a `json.JSONDecodeError`, caught by the except
clause; `crash` is an uncaught `TypeError` (iterating a non-iterable
document, or testing membership in a null/number/boolean element);
`keptRaw` means the comprehension completed but kept string values — the
function returns them and the caller's first `f["name"]` subscript then
raises an uncaught `TypeError`; `ok` carries the kept item dicts. A
document that is a string or a flat object iterates to strings, of which
the single characters and non-matching keys are dropped. -/
def readCache (toks : List Tok) : CacheRead :=
  match jsonLoad toks with
  | none => .parseError
  | some (.jscalar (.sstr _)) => .ok []
  | some (.jscalar _) => .crash
  | some (.jobj fs) =>
    if fs.any (fun f => pyInStr "file" f.1) then .keptRaw else .ok []
  | some (.jarr es) =>
    match filterElems es with
    | .error _ => .crash
    | .ok (_, true) => .keptRaw
    | .ok (l, false) => .ok l

/-- State of the snapshot cache file: missing (`exists()` false), present but
unreadable (`OSError` on open/read), or present with token content. -/
inductive Cache where
  | absent
  | unreadable
  | stored (toks : List Tok)
deriving DecidableEq, Repr

/-- One simulated Graph API listing response: HTTP status, the `value` array,
and the optional `@odata.nextLink`. -/
structure ODResp where
  status : Nat
  value : List Item
  nextLink : Option String
deriving DecidableEq, Repr

/-- Abort of the run: a non-200 status (`sys.exit(1)`); the simulated API
ran out of responses while a next link remained; an uncaught `TypeError`
raised by the cache-read comprehension; or a cache read that returned
non-dict (string) values, on which the caller's first `f["name"]` subscript
raises an uncaught `TypeError` — either `TypeError` kills the whole run. -/
inductive ODErr where
  | apiError (status : Nat)
  | noResponse
  | typeError
  | nonDictReturn
deriving DecidableEq, Repr

/-- The `while url:` pagination loop of `get_onedrive_camera_roll_files`:
consumes one simulated response per request, aborts on a non-200 status,
accumulates every page's `value` entries, and continues exactly while the
response's `@odata.nextLink` is truthy (present and nonempty). Returns the
accumulated raw items and the number of requests issued. -/
def fetchLive : List ODResp → Except ODErr (List Item × Nat)
  | [] => .error .noResponse
  | r :: rest =>
    if r.status ≠ 200 then .error (.apiError r.status)
    else if pyStrTruthy r.nextLink then
      match fetchLive rest with
      | .error e => .error e
      | .ok (items, n) => .ok (r.value ++ items, n + 1)
    else .ok (r.value, 1)

/-- Outcome of `get_onedrive_camera_roll_files`: the returned records, the
cache file state afterwards, the number of listing requests issued, and
whether the cache-read and cache-write warnings were printed. -/
structure ODOut where
  result : List Item
  cache : Cache
  requests : Nat
  warnedRead : Bool
  warnedWrite : Bool
deriving DecidableEq, Repr

/-- The live-fetch half of `get_onedrive_camera_roll_files` (lines 67-92):
fetch all pages, then if caching is enabled rewrite the cache file with the
serialized raw items — `writeFail = some j` models an `OSError` after `j`
tokens reached the truncated file, caught and logged as a warning — and
return the items carrying the `"file"` marker. -/
def livePart (useCache : Bool) (cache : Cache) (resps : List ODResp)
    (writeFail : Option Nat) (warnedRead : Bool) : Except ODErr ODOut :=
  match fetchLive resps with
  | .error e => .error e
  | .ok (items, n) =>
    if useCache then
      match writeFail with
      | none =>
        .ok ⟨items.filter (fun i => i.hasFile), .stored (encodeItems items), n,
          warnedRead, false⟩
      | some j =>
        .ok ⟨items.filter (fun i => i.hasFile), .stored ((encodeItems items).take j), n,
          warnedRead, true⟩
    else .ok ⟨items.filter (fun i => i.hasFile), cache, n, warnedRead, false⟩

/-- `get_onedrive_camera_roll_files(refresh)`: with caching enabled, no
refresh requested and a cache file present, try to load it: the kept item
dicts are returned; a `JSONDecodeError` (and an unreadable file) warns and
falls through to the live fetch; an uncaught `TypeError` — directly from
the comprehension, or from the caller's subscript of a returned non-dict
value — aborts the run. A missing file goes straight to the live fetch. -/
def get_onedrive_camera_roll_files (useCache refresh : Bool) (cache : Cache)
    (resps : List ODResp) (writeFail : Option Nat) : Except ODErr ODOut :=
  if useCache ∧ ¬refresh then
    match cache with
    | .absent => livePart useCache cache resps writeFail false
    | .unreadable => livePart useCache cache resps writeFail true
    | .stored toks =>
      match readCache toks with
      | .parseError => livePart useCache cache resps writeFail true
      | .crash => .error .typeError
      | .keptRaw => .error .nonDictReturn
      | .ok items => .ok ⟨items, cache, 0, false, false⟩
  else
    livePart useCache cache resps writeFail false

theorem parseScalar_scalarTok (v : JScalar) : parseScalar (scalarTok v) = some v := by
  cases v <;> rfl

theorem parseObjFields_encodeFields (fs : List (String × JScalar)) (rest : List Tok) :
    parseObjFields (encodeFields fs ++ rest) = some (fs, rest) := by
  induction fs with
  | nil => rfl
  | cons f fs ih =>
    obtain ⟨k, v⟩ := f
    simp [encodeFields, parseObjFields, parseScalar_scalarTok, ih]

theorem length_le_encList (l : List Item) : l.length ≤ (encList l).length := by
  induction l with
  | nil => simp [encList]
  | cons i rest ih =>
    simp [encList, encodeItemObj]
    omega

theorem parseArrElems_encList (l : List Item) (fuel : Nat) (h : l.length ≤ fuel) :
    parseArrElems fuel (encList l)
      = some (l.map (fun i => JElem.eobj (itemFields i))) := by
  induction l generalizing fuel with
  | nil =>
    cases fuel with
    | zero => rfl
    | succ f => rfl
  | cons i rest ih =>
    cases fuel with
    | zero => exact absurd h (by simp)
    | succ f =>
      have h2 : rest.length ≤ f := by
        simpa [Nat.succ_le_succ_iff] using h
      rw [encList, encodeItemObj, List.cons_append]
      simp [parseArrElems, parseObjFields_encodeFields, ih f h2]

theorem lookup_itemFields_file (i : Item) :
    (itemFields i).lookup "file"
      = if i.hasFile then some (JScalar.sbool true) else none := by
  obtain ⟨iid, inm, isz, ihf⟩ := i
  cases ihf <;> rfl

theorem itemOfFields_itemFields (i : Item) : itemOfFields (itemFields i) = i := by
  obtain ⟨iid, inm, isz, ihf⟩ := i
  cases ihf <;> cases isz <;> rfl

theorem filterElems_items (l : List Item) :
    filterElems (l.map (fun i => JElem.eobj (itemFields i)))
      = .ok (l.filter (fun i => i.hasFile), false) := by
  induction l with
  | nil => rfl
  | cons i rest ih =>
    by_cases hf : i.hasFile
    · simp only [List.map_cons, filterElems, ih, lookup_itemFields_file,
        itemOfFields_itemFields, hf, List.filter_cons, if_true, Option.isSome_some]
      rfl
    · simp only [List.map_cons, filterElems, ih, lookup_itemFields_file, hf,
        List.filter_cons, if_false, Option.isSome_none, Bool.false_eq_true]
      rfl

theorem readCache_encodeItems (l : List Item) :
    readCache (encodeItems l) = .ok (l.filter (fun i => i.hasFile)) := by
  have hload : jsonLoad (encodeItems l)
      = some (.jarr (l.map (fun i => JElem.eobj (itemFields i)))) := by
    rw [encodeItems]
    simp [jsonLoad, parseArrElems_encList l (encList l).length (length_le_encList l)]
  simp [readCache, hload, filterElems_items]

/-- A sample file-type record. -/
def itemA : Item := ⟨"id-a", "a.jpg", some 3, true⟩

/-- A sample folder-type record (no `"file"` marker). -/
def itemFolder : Item := ⟨"id-d", "dir", none, false⟩

/-- A second sample file-type record. -/
def itemC : Item := ⟨"id-c", "c.jpg", some 7, true⟩

/-- C3: serializing a raw item list to the snapshot cache (as the live fetch
does) and loading it on a later call with caching enabled and no refresh
yields exactly the file-type records, with zero requests; and the live path
itself both writes that serialization and returns only file-type records. -/
theorem c3_cache_roundtrip (items : List Item) (resps : List ODResp)
    (writeFail : Option Nat) (prior : Cache) :
    get_onedrive_camera_roll_files true false (.stored (encodeItems items)) resps writeFail
      = .ok ⟨items.filter (fun i => i.hasFile), .stored (encodeItems items), 0, false, false⟩
    ∧ get_onedrive_camera_roll_files true true prior [⟨200, items, none⟩] none
      = .ok ⟨items.filter (fun i => i.hasFile), .stored (encodeItems items), 1, false, false⟩ := by
  constructor
  · simp [get_onedrive_camera_roll_files, readCache_encodeItems]
  · simp [get_onedrive_camera_roll_files, livePart, fetchLive, pyStrTruthy]

theorem fetchLive_pages (ps : List ODResp) (q : ODResp)
    (hps : ∀ p ∈ ps, p.status = 200 ∧ pyStrTruthy p.nextLink = true)
    (hq : q.status = 200) (hqn : q.nextLink = none) :
    fetchLive (ps ++ [q])
      = .ok ((ps.map (fun p => p.value)).flatten ++ q.value, ps.length + 1) := by
  induction ps with
  | nil => simp [fetchLive, hq, hqn, pyStrTruthy]
  | cons p rest ih =>
    obtain ⟨hstat, htr⟩ := hps p (List.mem_cons_self p rest)
    have ihr := ih (fun x hx => hps x (List.mem_cons_of_mem p hx))
    rw [List.cons_append]
    simp [fetchLive, hstat, htr, ihr, List.append_assoc]

/-- C4: against a simulated listing API whose responses carry a truthy
next-page cursor on pages 1..k (Python's `while url:` also stops on an
empty-string link) and omit it on page k+1, the live fetch issues exactly
k+1 requests, terminates, and returns the concatenation of all pages'
entries filtered to file-type entries. -/
theorem c4_onedrive_pagination (ps : List ODResp) (q : ODResp) (prior : Cache)
    (hps : ∀ p ∈ ps, p.status = 200 ∧ pyStrTruthy p.nextLink = true)
    (hq : q.status = 200) (hqn : q.nextLink = none) :
    fetchLive (ps ++ [q])
      = .ok ((ps.map (fun p => p.value)).flatten ++ q.value, ps.length + 1)
    ∧ get_onedrive_camera_roll_files false true prior (ps ++ [q]) none
      = .ok ⟨((ps.map (fun p => p.value)).flatten ++ q.value).filter (fun i => i.hasFile),
          prior, ps.length + 1, false, false⟩ := by
  have hfl := fetchLive_pages ps q hps hq hqn
  refine ⟨hfl, ?_⟩
  simp [get_onedrive_camera_roll_files, livePart, hfl]

/-- C4 witness: two pages, the first with a cursor, the second without. -/
theorem c4_onedrive_pagination_witness :
    fetchLive ([⟨200, [itemA, itemFolder], some "next"⟩] ++ [⟨200, [itemC], none⟩])
      = .ok ((([(⟨200, [itemA, itemFolder], some "next"⟩ : ODResp)].map
          (fun p => p.value)).flatten ++ [itemC], 2))
    ∧ get_onedrive_camera_roll_files false true .absent
        ([⟨200, [itemA, itemFolder], some "next"⟩] ++ [⟨200, [itemC], none⟩]) none
      = .ok ⟨(([(⟨200, [itemA, itemFolder], some "next"⟩ : ODResp)].map
            (fun p => p.value)).flatten ++ [itemC]).filter (fun i => i.hasFile),
          .absent, 2, false, false⟩ :=
  c4_onedrive_pagination [⟨200, [itemA, itemFolder], some "next"⟩] ⟨200, [itemC], none⟩
    .absent (by decide) rfl rfl

/-- C7: the recovery the claim describes does happen for content that fails
JSON parsing and for an unreadable file — warning, then the live fetch —
but the code violates the claim on cache content that parses as JSON of the
wrong shape: the document `[null]` is malformed as an inventory, yet
`"file" in None` raises an uncaught `TypeError`, so the whole operation
fails with no warning and no live fetch. -/
theorem c7_bad_cache_crash :
    jsonLoad [Tok.lb, Tok.tnull, Tok.rb] = some (.jarr [.escalar .snull])
    ∧ readCache [Tok.lb, Tok.tnull, Tok.rb] = .crash
    ∧ get_onedrive_camera_roll_files true false (.stored [Tok.lb, Tok.tnull, Tok.rb])
        [⟨200, [itemA], none⟩] none = .error .typeError
    ∧ readCache [Tok.rb] = .parseError
    ∧ get_onedrive_camera_roll_files true false (.stored [Tok.rb]) [⟨200, [itemA], none⟩] none
      = livePart true (.stored [Tok.rb]) [⟨200, [itemA], none⟩] none true
    ∧ get_onedrive_camera_roll_files true false .unreadable [⟨200, [itemA], none⟩] none
      = livePart true .unreadable [⟨200, [itemA], none⟩] none true :=
  ⟨rfl, rfl, rfl, rfl, rfl, rfl⟩

/-- C8 counterexample: a cache writeback that fails after one token leaves
the file holding `[Tok.lb]` — neither the complete new serialization nor the
prior content — refuting the claim that the cache file is written
atomically. -/
theorem c8_atomic_write_counterexample :
    get_onedrive_camera_roll_files true true (.stored (encodeItems [itemA]))
        [⟨200, [itemC], none⟩] (some 1)
      = .ok ⟨[itemC], .stored [Tok.lb], 1, false, true⟩
    ∧ Cache.stored [Tok.lb] ≠ Cache.stored (encodeItems [itemC])
    ∧ Cache.stored [Tok.lb] ≠ Cache.stored (encodeItems [itemA])
    ∧ readCache [Tok.lb] = .parseError := by
  refine ⟨rfl, by decide, by decide, rfl⟩

/-- C8 amended: the cache file is rewritten in place (truncate then stream):
a writeback that completes leaves the complete new serialization; one that
fails after `j` tokens leaves the `j`-token prefix of the new serialization
and is logged as a warning, the returned records being unaffected. -/
theorem c8_cache_write_in_place (items : List Item) (prior : Cache) (j : Nat) :
    get_onedrive_camera_roll_files true true prior [⟨200, items, none⟩] (some j)
      = .ok ⟨items.filter (fun i => i.hasFile), .stored ((encodeItems items).take j),
          1, false, true⟩
    ∧ get_onedrive_camera_roll_files true true prior [⟨200, items, none⟩] none
      = .ok ⟨items.filter (fun i => i.hasFile), .stored (encodeItems items),
          1, false, false⟩ := by
  constructor <;> simp [get_onedrive_camera_roll_files, livePart, fetchLive, pyStrTruthy]

/-- A JSON scalar as the `nextPage` field may hold it: a number or a string. -/
inductive PyVal where
  | pint (n : Int)
  | pstr (s : String)
deriving DecidableEq, Repr

/-- Python truthiness of the optional `nextPage` value: `None`, `0` and `""`
are falsy. -/
def pyValTruthy : Option PyVal → Bool
  | none => false
  | some (.pint n) => n ≠ 0
  | some (.pstr s) => s ≠ ""

/-- Value of the rest of a digit run, allowing single underscores between
digits as Python `int()` does: `none` when an underscore is trailing or
doubled, or a non-digit appears. -/
def pyDigitsAux : List Char → Nat → Option Nat
  | [], acc => some acc
  | ['_'], _ => none
  | '_' :: c :: rest, acc =>
    if c.isDigit then pyDigitsAux rest (acc * 10 + (c.toNat - 48)) else none
  | c :: rest, acc =>
    if c.isDigit then pyDigitsAux rest (acc * 10 + (c.toNat - 48)) else none

/-- A digit run: nonempty and starting with a digit (not an underscore). -/
def pyDigits : List Char → Option Nat
  | [] => none
  | c :: rest => if c.isDigit then pyDigitsAux rest (c.toNat - 48) else none

/-- Python `int(s)` on a string: surrounding whitespace stripped, an
optional sign, then digits with optional single underscores between them;
`none` models `ValueError`. -/
def pyParseInt (s : String) : Option Int :=
  match ((s.toList.dropWhile (fun c => c.isWhitespace)).reverse.dropWhile
      (fun c => c.isWhitespace)).reverse with
  | '-' :: rest => (pyDigits rest).map (fun n => -(n : Int))
  | '+' :: rest => (pyDigits rest).map (fun n => (n : Int))
  | cs => (pyDigits cs).map (fun n => (n : Int))

/-- Python `int(v)` on a `nextPage` value; `none` models
`TypeError`/`ValueError`. -/
def pyToInt : PyVal → Option Int
  | .pint n => some n
  | .pstr s => pyParseInt s

/-- One simulated Immich `POST /search/metadata` response: HTTP status, the
`assets.items` array and the optional `assets.nextPage` value. -/
structure ImResp where
  status : Nat
  items : List ImAsset
  nextPage : Option PyVal
deriving DecidableEq, Repr

/-- The `while True:` pagination loop of `get_immich_assets`: one simulated
response per request; a non-200 status exits the program; an empty items
page or a falsy `nextPage` ends the loop; otherwise the next page number is
`int(next_page)`, falling back to `page + 1` when that fails. Returns the
accumulated assets and the page numbers sent, in request order. -/
def get_immich_assets_loop : List ImResp → Int → Except ODErr (List ImAsset × List Int)
  | [], _ => .error .noResponse
  | r :: rest, page =>
    if r.status ≠ 200 then .error (.apiError r.status)
    else if r.items.isEmpty then .ok ([], [page])
    else if pyValTruthy r.nextPage = false then .ok (r.items, [page])
    else
      let nextPageNum : Int :=
        match r.nextPage with
        | none => page + 1
        | some v =>
          match pyToInt v with
          | some m => m
          | none => page + 1
      match get_immich_assets_loop rest nextPageNum with
      | .error e => .error e
      | .ok (as, pgs) => .ok (r.items ++ as, page :: pgs)

/-- `get_immich_assets()`: the pagination loop started at page 1. -/
def get_immich_assets (resps : List ImResp) : Except ODErr (List ImAsset × List Int) :=
  get_immich_assets_loop resps 1

/-- C9: the Immich pagination loop terminates on an empty page or a missing
(falsy) next-page token, returning the items accumulated across pages in
order; on a truthy next-page token, it continues with `int(token)` as the
next page number, or with the counter incremented by one when the token is
not parseable as an integer. -/
theorem c9_immich_pagination (r : ImResp) (rest : List ImResp) (page : Int)
    (hst : r.status = 200) :
    (r.items = [] → get_immich_assets_loop (r :: rest) page = .ok ([], [page]))
    ∧ (r.items ≠ [] → pyValTruthy r.nextPage = false →
        get_immich_assets_loop (r :: rest) page = .ok (r.items, [page]))
    ∧ (∀ v : PyVal, r.items ≠ [] → r.nextPage = some v → pyValTruthy (some v) = true →
        pyToInt v = none →
        get_immich_assets_loop (r :: rest) page
          = match get_immich_assets_loop rest (page + 1) with
            | .error e => .error e
            | .ok (as, pgs) => .ok (r.items ++ as, page :: pgs))
    ∧ (∀ (v : PyVal) (m : Int), r.items ≠ [] → r.nextPage = some v →
        pyValTruthy (some v) = true → pyToInt v = some m →
        get_immich_assets_loop (r :: rest) page
          = match get_immich_assets_loop rest m with
            | .error e => .error e
            | .ok (as, pgs) => .ok (r.items ++ as, page :: pgs)) := by
  refine ⟨?_, ?_, ?_, ?_⟩
  · intro hempty
    simp [get_immich_assets_loop, hst, hempty]
  · intro hne hfalsy
    rw [get_immich_assets_loop]
    simp [hst, List.isEmpty_iff, hne, hfalsy]
  · intro v hne hnp htruthy hparse
    rw [get_immich_assets_loop]
    simp [hst, List.isEmpty_iff, hne, hnp, htruthy, hparse]
  · intro v m hne hnp htruthy hparse
    rw [get_immich_assets_loop]
    simp [hst, List.isEmpty_iff, hne, hnp, htruthy, hparse]

/-- A sample Immich asset for pagination witnesses. -/
def assetW : ImAsset := ⟨some "w.jpg", none, none⟩

/-- C9 witness: the loop behaviours at concrete responses, including a
token with whitespace and an underscore that Python parses. -/
theorem c9_immich_pagination_witness :
    get_immich_assets_loop [⟨200, [], none⟩] 1 = .ok ([], [1])
    ∧ get_immich_assets_loop [⟨200, [assetW], none⟩] 1 = .ok ([assetW], [1])
    ∧ get_immich_assets_loop (⟨200, [assetW], some (.pstr "abc")⟩ :: [⟨200, [], none⟩]) 1
        = (match get_immich_assets_loop [⟨200, [], none⟩] (1 + 1) with
          | .error e => .error e
          | .ok (as, pgs) => .ok ([assetW] ++ as, 1 :: pgs))
    ∧ get_immich_assets_loop (⟨200, [assetW], some (.pstr "5")⟩ :: [⟨200, [], none⟩]) 1
        = (match get_immich_assets_loop [⟨200, [], none⟩] 5 with
          | .error e => .error e
          | .ok (as, pgs) => .ok ([assetW] ++ as, 1 :: pgs))
    ∧ get_immich_assets_loop (⟨200, [assetW], some (.pstr " 1_0")⟩ :: [⟨200, [], none⟩]) 1
        = (match get_immich_assets_loop [⟨200, [], none⟩] 10 with
          | .error e => .error e
          | .ok (as, pgs) => .ok ([assetW] ++ as, 1 :: pgs)) :=
  ⟨(c9_immich_pagination ⟨200, [], none⟩ [] 1 rfl).1 rfl,
   (c9_immich_pagination ⟨200, [assetW], none⟩ [] 1 rfl).2.1 (by decide) rfl,
   (c9_immich_pagination ⟨200, [assetW], some (.pstr "abc")⟩ [⟨200, [], none⟩] 1 rfl).2.2.1
     (.pstr "abc") (by decide) rfl (by decide) (by decide),
   (c9_immich_pagination ⟨200, [assetW], some (.pstr "5")⟩ [⟨200, [], none⟩] 1 rfl).2.2.2
     (.pstr "5") 5 (by decide) rfl (by decide) (by decide),
   (c9_immich_pagination ⟨200, [assetW], some (.pstr " 1_0")⟩ [⟨200, [], none⟩] 1 rfl).2.2.2
     (.pstr " 1_0") 10 (by decide) rfl (by decide) (by decide)⟩

/-- One simulated content-endpoint response: HTTP status and the stream's
chunks (`iter_content(chunk_size=8192)`), each a list of bytes. -/
structure DLResp where
  status : Nat
  chunks : List (List Nat)
deriving DecidableEq, Repr

/-- `dest_path.exists()`: the destination folder holds a file of this name. -/
def fileExistsIn (dest : List (String × List Nat)) (name : String) : Bool :=
  dest.any (fun e => e.1 = name)

/-- The chunk loop of `download_onedrive_file`: empty chunks are skipped;
each other chunk is appended to the file and advances the per-file bar and,
when supplied, the overall bar by its length. Returns the written content,
the per-file bar and the overall bar. -/
def writeChunks : List (List Nat) → List Nat → Nat → Option Nat → List Nat × Nat × Option Nat
  | [], content, fileBar, overall => (content, fileBar, overall)
  | c :: rest, content, fileBar, overall =>
    if c.isEmpty then writeChunks rest content fileBar overall
    else writeChunks rest (content ++ c) (fileBar + c.length)
      (overall.map (fun n => n + c.length))

/-- Outcome of `download_onedrive_file`: content-endpoint requests issued,
destination folder contents, overall progress counter, and whether the
per-file failure message was printed. -/
structure DLOut where
  requests : Nat
  dest : List (String × List Nat)
  overall : Option Nat
  failLogged : Bool
deriving DecidableEq, Repr

/-- `download_onedrive_file(item, dest_folder, overall_pbar)`: skip (bumping
the overall bar by the declared size when positive) if the file exists; one
streaming request otherwise; a status outside {200, 302} logs the failure,
bumps the overall bar by the declared size when positive, and returns;
otherwise the chunks are written to the destination file. -/
def download_onedrive_file (item : Item) (dest : List (String × List Nat))
    (overall : Option Nat) (resp : DLResp) : DLOut :=
  let size := item.size.getD 0
  if fileExistsIn dest item.name then
    { requests := 0, dest := dest,
      overall := if overall.isSome ∧ size > 0 then overall.map (fun n => n + size) else overall,
      failLogged := false }
  else if resp.status ≠ 200 ∧ resp.status ≠ 302 then
    { requests := 1, dest := dest,
      overall := if overall.isSome ∧ size > 0 then overall.map (fun n => n + size) else overall,
      failLogged := true }
  else
    let w := writeChunks resp.chunks [] 0 overall
    { requests := 1, dest := dest ++ [(item.name, w.1)], overall := w.2.2,
      failLogged := false }

/-- The download loop of `main`: each missing file is processed in turn,
threading the destination folder and the overall counter. -/
def downloadBatch : List (Item × DLResp) → List (String × List Nat) → Option Nat →
    List (String × List Nat) × Option Nat
  | [], dest, overall => (dest, overall)
  | (it, r) :: rest, dest, overall =>
    let o := download_onedrive_file it dest overall r
    downloadBatch rest o.dest o.overall

theorem overall_bump_eq (overall : Option Nat) (size : Nat) :
    (if overall.isSome ∧ size > 0 then overall.map (fun n => n + size) else overall)
      = overall.map (fun n => n + size) := by
  cases overall with
  | none => simp
  | some n =>
    by_cases hsz : size > 0
    · simp [hsz]
    · have h0 : size = 0 := by omega
      simp [h0]

/-- C5: when the file name already exists at the destination,
`download_onedrive_file` performs no network request, advances the overall
counter (when supplied) by exactly the record's declared size, and leaves
the destination contents unchanged. -/
theorem c5_existing_file_skipped (item : Item) (dest : List (String × List Nat))
    (overall : Option Nat) (resp : DLResp)
    (h : fileExistsIn dest item.name = true) :
    download_onedrive_file item dest overall resp
      = { requests := 0, dest := dest,
          overall := overall.map (fun n => n + item.size.getD 0), failLogged := false } := by
  simp [download_onedrive_file, h, overall_bump_eq]

/-- C5 witness: a record whose name is already present. -/
theorem c5_existing_file_skipped_witness :
    download_onedrive_file itemA [("a.jpg", [9, 9])] (some 10) ⟨200, [[1]]⟩
      = { requests := 0, dest := [("a.jpg", [9, 9])],
          overall := (some 10).map (fun n => n + itemA.size.getD 0), failLogged := false } :=
  c5_existing_file_skipped itemA [("a.jpg", [9, 9])] (some 10) ⟨200, [[1]]⟩ (by decide)

/-- C6: a content response with status outside {200, 302} logs the failure,
advances the overall counter by the declared size, writes nothing to the
destination, and returns normally, so the batch goes on to process the
remaining files with the destination unchanged. -/
theorem c6_rejected_status_skips_file (item : Item) (dest : List (String × List Nat))
    (overall : Option Nat) (resp : DLResp) (rest : List (Item × DLResp))
    (hne : fileExistsIn dest item.name = false)
    (h200 : resp.status ≠ 200) (h302 : resp.status ≠ 302) :
    download_onedrive_file item dest overall resp
      = { requests := 1, dest := dest,
          overall := overall.map (fun n => n + item.size.getD 0), failLogged := true }
    ∧ downloadBatch ((item, resp) :: rest) dest overall
      = downloadBatch rest dest (overall.map (fun n => n + item.size.getD 0)) := by
  have hdl : download_onedrive_file item dest overall resp
      = { requests := 1, dest := dest,
          overall := overall.map (fun n => n + item.size.getD 0), failLogged := true } := by
    simp [download_onedrive_file, hne, h200, h302, overall_bump_eq]
  refine ⟨hdl, ?_⟩
  rw [downloadBatch, hdl]

/-- C6 witness: a 404 on the first file of a two-file batch. -/
theorem c6_rejected_status_skips_file_witness :
    download_onedrive_file itemC [] (some 0) ⟨404, []⟩
      = { requests := 1, dest := [],
          overall := (some 0).map (fun n => n + itemC.size.getD 0), failLogged := true }
    ∧ downloadBatch ((itemC, ⟨404, []⟩) :: [(itemA, ⟨200, [[1, 2, 3]]⟩)]) [] (some 0)
      = downloadBatch [(itemA, ⟨200, [[1, 2, 3]]⟩)] []
          ((some 0).map (fun n => n + itemC.size.getD 0)) :=
  c6_rejected_status_skips_file itemC [] (some 0) ⟨404, []⟩ [(itemA, ⟨200, [[1, 2, 3]]⟩)]
    (by decide) (by decide) (by decide)

/-- C10: when the record's size field is absent or zero, the guarded updates
leave the overall counter unchanged, both in the file-already-exists branch
and in the rejected-status branch. -/
theorem c10_falsy_size_no_bump (item : Item) (dest : List (String × List Nat))
    (overall : Option Nat) (resp : DLResp)
    (hsz : item.size = none ∨ item.size = some 0) :
    (fileExistsIn dest item.name = true →
      (download_onedrive_file item dest overall resp).overall = overall)
    ∧ (fileExistsIn dest item.name = false → resp.status ≠ 200 → resp.status ≠ 302 →
      (download_onedrive_file item dest overall resp).overall = overall) := by
  have h0 : item.size.getD 0 = 0 := by rcases hsz with h | h <;> simp [h]
  constructor
  · intro hex
    simp [download_onedrive_file, hex, h0]
  · intro hex h200 h302
    simp [download_onedrive_file, hex, h200, h302, h0]

/-- A sample record with no declared size. -/
def itemNoSize : Item := ⟨"id-n", "n.jpg", none, true⟩

/-- C10 witness: both branches at a record with an absent size field. -/
theorem c10_falsy_size_no_bump_witness :
    (download_onedrive_file itemNoSize [("n.jpg", [])] (some 5) ⟨404, []⟩).overall = some 5
    ∧ (download_onedrive_file itemNoSize [] (some 5) ⟨404, []⟩).overall = some 5 :=
  ⟨(c10_falsy_size_no_bump itemNoSize [("n.jpg", [])] (some 5) ⟨404, []⟩ (Or.inl rfl)).1
      (by decide),
   (c10_falsy_size_no_bump itemNoSize [] (some 5) ⟨404, []⟩ (Or.inl rfl)).2
      (by decide) (by decide) (by decide)⟩
